import Mathlib

/-!
# Verification of the JSON-to-DOCX rendering core of `ai-pdf2docx`

Shallow embedding of `phase2_json_to_docx.py`: the Markdown table parser
(`parse_markdown_table`), the per-element renderer and the document assembler
(`create_docx_from_structured_data`).  Python strings are modelled as Lean
`String`s; the Python `str` methods used by the source (`strip`, `split`,
`splitlines`, `startswith`, `endswith`, `join`) are reproduced below with
CPython's documented semantics.  JSON values are an inductive type; the
`json.loads` call is represented by an `Option Json` input (`none` = a
`json.JSONDecodeError`).  The DOCX library is modelled by the list of
block-level items the source appends to the document.
-/

namespace AiPdf2Docx

/-- CPython `str.isspace` for the characters `str.strip()` removes:
whitespace per the Unicode database (verified against CPython 3.11). -/
def pyIsSpace (c : Char) : Bool :=
  c = ' ' || c = '\t' || c = '\n' || c = '\x0b' || c = '\x0c' || c = '\x0d' ||
  c = '\x1c' || c = '\x1d' || c = '\x1e' || c = '\x1f' || c = '\x85' || c = '\xa0' ||
  c = '\u1680' || ('\u2000' ≤ c && c ≤ '\u200a') || c = '\u2028' || c = '\u2029' ||
  c = '\u202f' || c = '\u205f' || c = '\u3000'

/-- Remove the characters satisfying `p` from both ends of a character list
(the common core of Python `str.strip()` and `str.strip('|')`). -/
def stripWhile (p : Char → Bool) (l : List Char) : List Char :=
  ((l.dropWhile p).reverse.dropWhile p).reverse

/-- Python `s.strip()`: remove whitespace from both ends. -/
def pyStrip (s : String) : String :=
  ⟨stripWhile pyIsSpace s.data⟩

/-- Python `s.strip('|')`: remove every leading and trailing `|`. -/
def pyStripPipes (s : String) : String :=
  ⟨stripWhile (fun c => c = '|') s.data⟩

/-- Python `s.split(sep)` for a one-character separator, over the character
list: splits at every occurrence, keeping empty fields; `''.split(sep)`
is `['']`. -/
def pySplitCharAux (sep : Char) : List Char → List Char → List String
  | [], acc => [⟨acc.reverse⟩]
  | c :: rest, acc =>
    if c = sep then ⟨acc.reverse⟩ :: pySplitCharAux sep rest []
    else pySplitCharAux sep rest (c :: acc)

/-- Python `s.split(sep)` for a one-character separator. -/
def pySplitChar (sep : Char) (s : String) : List String :=
  pySplitCharAux sep s.data []

/-- Python `s.startswith(c)` for a one-character argument. -/
def pyStartsWith (c : Char) (s : String) : Bool :=
  match s.data with
  | [] => false
  | c2 :: _ => c2 = c

/-- Python `s.endswith(c)` for a one-character argument. -/
def pyEndsWith (c : Char) (s : String) : Bool :=
  match s.data.getLast? with
  | none => false
  | some c2 => c2 = c

/-- The line-boundary characters of CPython `str.splitlines` other than the
two-character boundary `\r\n` (verified against CPython 3.11). -/
def pyIsLineBreak (c : Char) : Bool :=
  c = '\n' || c = '\x0b' || c = '\x0c' || c = '\x0d' ||
  c = '\x1c' || c = '\x1d' || c = '\x1e' || c = '\x85' ||
  c = '\u2028' || c = '\u2029'

/-- Worker for Python `str.splitlines`: `acc` holds the current line,
reversed; `afterCR` records that the previous character was a `\r` whose
boundary was already emitted, so that an immediately following `\n` is
part of the same `\r\n` boundary and is skipped; no trailing empty line is
produced for a trailing boundary. -/
def pySplitlinesGo : List Char → List Char → Bool → List String
  | [], acc, _ => if acc.isEmpty then [] else [⟨acc.reverse⟩]
  | c :: rest, acc, afterCR =>
    if afterCR ∧ c = '\n' then pySplitlinesGo rest acc false
    else if c = '\x0d' then ⟨acc.reverse⟩ :: pySplitlinesGo rest [] true
    else if pyIsLineBreak c then ⟨acc.reverse⟩ :: pySplitlinesGo rest [] false
    else pySplitlinesGo rest (c :: acc) false

/-- Python `s.splitlines()`. -/
def pySplitlines (s : String) : List String :=
  pySplitlinesGo s.data [] false

/-- Python `' '.join(xs)`: one separating space between consecutive pieces. -/
def pySpaceJoin : List String → String
  | [] => ""
  | [x] => x
  | x :: y :: rest => x ++ " " ++ pySpaceJoin (y :: rest)

/-- Python `needle in hay` on strings: substring containment. -/
def pyStrContains (hay needle : String) : Bool :=
  (List.range (hay.data.length + 1)).any
    (fun i => (hay.data.drop i).take needle.data.length == needle.data)

/-! ## The Markdown table parser (`parse_markdown_table`, lines 8-27) -/

/-- Line 11: `def clean_cell(cell_text): return cell_text.strip()`. -/
def clean_cell (cell_text : String) : String := pyStrip cell_text

/-- Line 9: `[line.strip() for line in markdown_table_content.strip().split('\n')
if line.strip()]`. -/
def pmtLines (markdown_table_content : String) : List String :=
  ((pySplitChar '\n' (pyStrip markdown_table_content)).map pyStrip).filter
    (fun line => line ≠ "")

/-- Loop state of `parse_markdown_table`: `(table_data, header_parsed, num_cols)`. -/
abbrev PmtState := List (List String) × Bool × Nat

/-- One iteration of the loop at lines 13-26, on the pair `(i, line)` from
`enumerate(lines)`.  Note the check at line 15 (`if i == 1 and
all(c in '-|: ' for c in line): continue`) sits inside the branch taken when
the line does *not* both start and end with `|`, and that branch falls
through to a bare `continue`; both paths leave the state unchanged, exactly
as in the source. -/
def pmtStep (st : PmtState) (iline : Nat × String) : PmtState :=
  let (table_data, header_parsed, num_cols) := st
  let (i, line) := iline
  if ¬ (pyStartsWith '|' line ∧ pyEndsWith '|' line) then
    if i = 1 ∧ line.data.all (fun c => c = '-' || c = '|' || c = ':' || c = ' ') then
      (table_data, header_parsed, num_cols)
    else
      (table_data, header_parsed, num_cols)
  else
    let cells := (pySplitChar '|' (pyStripPipes line)).map clean_cell
    if ¬ header_parsed then
      (table_data ++ [cells], true, cells.length)
    else if cells.length = num_cols then
      (table_data ++ [cells], header_parsed, num_cols)
    else if cells.length > num_cols ∧ num_cols > 0 then
      (table_data ++ [cells.take num_cols], header_parsed, num_cols)
    else if cells.length < num_cols ∧ num_cols > 0 then
      (table_data ++ [cells ++ List.replicate (num_cols - cells.length) ""],
       header_parsed, num_cols)
    else if num_cols = 0 ∧ ¬ cells.isEmpty then
      (table_data ++ [cells], header_parsed, cells.length)
    else
      (table_data, header_parsed, num_cols)

/-- Function `parse_markdown_table` (lines 8-27): best-effort parse of a Markdown
table block into a grid of trimmed string cells. -/
def parse_markdown_table (markdown_table_content : String) : List (List String) :=
  let lines := pmtLines markdown_table_content
  if lines.isEmpty then []
  else ((lines.enum.foldl pmtStep ([], false, 0)) : PmtState).1

/-! ## JSON values and the DOCX document model -/

/-- The values `json.loads` can produce.  Numbers are modelled as integers
(the inputs this program receives carry no fractional numbers); objects are
association lists with the keys of the parsed dict (unique, first match
wins on lookup). -/
inductive Json where
  | null
  | bool (b : Bool)
  | num (n : Int)
  | str (s : String)
  | arr (elems : List Json)
  | obj (fields : List (String × Json))

/-- Python truthiness (`if x:`) of a JSON value. -/
def Json.truthy : Json → Bool
  | .null => false
  | .bool b => b
  | .num n => n != 0
  | .str s => s != ""
  | .arr xs => !xs.isEmpty
  | .obj fs => !fs.isEmpty

/-- CPython `repr()` of a JSON value, used when a container is interpolated
into an f-string.  Atoms follow CPython exactly; strings are single-quoted
(CPython additionally escapes quotes and control characters; no claim
exercises that corner). -/
def pyRepr : Json → String
  | .null => "None"
  | .bool true => "True"
  | .bool false => "False"
  | .num n => toString n
  | .str s => "\x27" ++ s ++ "\x27"
  | .arr xs => "[" ++ String.intercalate ", " (xs.attach.map (fun x => pyRepr x.1)) ++ "]"
  | .obj fs =>
    "\x7b" ++
      String.intercalate ", "
        (fs.attach.map (fun kv => "\x27" ++ kv.1.1 ++ "\x27: " ++ pyRepr kv.1.2)) ++
    "\x7d"
termination_by j => sizeOf j
decreasing_by
  · simp_wf
    have h := List.sizeOf_lt_of_mem x.2
    omega
  · simp_wf
    have h := List.sizeOf_lt_of_mem kv.2
    have h2 : sizeOf kv.1.2 < sizeOf kv.1 := by
      obtain ⟨⟨a, b⟩, hm⟩ := kv
      simp
    omega

/-- Python `str(x)` of a JSON value, as interpolated by the f-strings at
lines 89 and 93: atoms print as `None`/`True`/`False`/decimal/the string
itself; containers print via `repr` of their parts. -/
def pyToStr : Json → String
  | .str s => s
  | j => pyRepr j

/-- Python `str(x)` of `element.get("type")`: `None` when the key is
missing. -/
def pyToStrOpt : Option Json → String
  | none => "None"
  | some j => pyToStr j

/-- Python `x == "lit"` for a JSON value: true only for the equal string. -/
def Json.eqStr (j : Json) (s : String) : Bool :=
  match j with
  | .str t => t == s
  | _ => false

/-- Python `x == "lit"` where `x` is `element.get("type")` (possibly `None`). -/
def optEqStr (o : Option Json) (s : String) : Bool :=
  match o with
  | none => false
  | some j => j.eqStr s

/-- The four paragraph styles the source uses
(`Heading 1`/`Heading 2`/`Heading 3`/`Normal`). -/
inductive Style where
  | heading1
  | heading2
  | heading3
  | normal
deriving DecidableEq, Repr

/-- One block-level item appended to the python-docx `Document`: a styled
paragraph, or a table of `numCols` columns whose header cells carry the
bold flag the source sets (lines 68-82) and whose data rows are the parsed
rows added by the loop at lines 78-82. -/
inductive Block where
  | para (style : Style) (text : String)
  | table (numCols : Nat) (header : List (String × Bool)) (dataRows : List (List String))
deriving DecidableEq, Repr

/-- The exceptions the embedded code can raise: `AttributeError` (attribute
access such as `.get`/`.strip`/`.splitlines` on a value without it) and
`TypeError` (`in` on a non-container, indexing with a string, non-string
text handed to python-docx). -/
inductive PyErr where
  | attributeError
  | typeError
deriving DecidableEq, Repr

/-! ## The per-element renderer (body of the loop at lines 43-93) -/

/-- Call `doc.add_paragraph(content, style=...)` at lines 48/50/52, where
`content` may be any JSON value: python-docx adds a run only when the text
is truthy, and its run-text setter iterates the characters of the value, so
a truthy non-string raises `TypeError` while a falsy non-string yields an
empty paragraph. -/
def add_paragraph_text (content : Json) : Except PyErr String :=
  match content with
  | .str s => .ok s
  | j => if j.truthy then .error .typeError else .ok ""

/-- The fallback paragraph of line 89, emitted when table construction
raises. -/
def table_fallback (content : String) : Block :=
  .para .normal ("[Fallback: Error rendering table. Raw Markdown:]\n" ++ content)

/-- The `try` block at lines 67-82: build the DOCX table.  `add_table`,
`add_row` and cell assignment cannot fail on the grids this program
produces, so the body is total; python-docx's cell-text setter always
leaves a run in the cell, so the bold flag of line 76 is set on every
header cell that was assigned (`i < num_cols`).  Data rows are added only
when their cell count equals `num_cols` (line 79). -/
def build_table_block (table_data : List (List String)) (num_cols : Nat) :
    Except String Block :=
  match table_data with
  | [] => .error "list index out of range"
  | hdr :: rest =>
    .ok (.table num_cols
      ((List.range num_cols).map (fun i =>
        match hdr.get? i with
        | some t => (t, true)
        | none => ("", false)))
      (rest.filter (fun row => row.length == num_cols)))

/-- The `table_markdown` branch (lines 57-90) on a string content: skip
blank content, parse, skip empty or empty-headed grids, otherwise emit the
table block, falling back to a raw-Markdown paragraph if construction
raised. -/
def render_table_str (content : String) : List Block :=
  if content ≠ "" ∧ pyStrip content ≠ "" then
    let table_data := parse_markdown_table content
    match table_data with
    | [] => []
    | hdr :: rest =>
      if 0 < hdr.length then
        match build_table_block (hdr :: rest) hdr.length with
        | .ok b => [b]
        | .error _ => [table_fallback content]
      else []
  else []

/-- One iteration of the element loop (lines 43-93): the blocks the
iteration appends to `doc`, or the exception it raises.  A non-dict element
raises `AttributeError` at `element.get`; a missing `"content"` key
defaults to `""`. -/
def render_element (element : Json) : Except PyErr (List Block) :=
  match element with
  | .obj fields =>
    let el_type := List.lookup "type" fields
    let content := (List.lookup "content" fields).getD (.str "")
    if optEqStr el_type "heading_1" then
      (add_paragraph_text content).map (fun s => [.para .heading1 s])
    else if optEqStr el_type "heading_2" then
      (add_paragraph_text content).map (fun s => [.para .heading2 s])
    else if optEqStr el_type "heading_3" then
      (add_paragraph_text content).map (fun s => [.para .heading3 s])
    else if optEqStr el_type "paragraph" then
      match content with
      | .str s =>
        let processed_content := pyStrip (pySpaceJoin (pySplitlines s))
        .ok (if processed_content ≠ "" then [.para .normal processed_content] else [])
      | _ => .error .attributeError
    else if optEqStr el_type "table_markdown" then
      match content with
      | .str s => .ok (render_table_str s)
      | j => if j.truthy then .error .attributeError else .ok []
    else
      if content.truthy then
        .ok [.para .normal
          ("[Unknown type: " ++ pyToStrOpt el_type ++ "] " ++ pyToStr content)]
      else .ok []
  | _ => .error .attributeError

/-- The whole element loop: concatenation of the blocks of each element, or
the first uncaught exception. -/
def render_all (elems : List Json) : Except PyErr (List Block) :=
  match elems with
  | [] => .ok []
  | e :: rest =>
    match render_element e with
    | .error err => .error err
    | .ok bs =>
      match render_all rest with
      | .error err => .error err
      | .ok bs2 => .ok (bs ++ bs2)

/-! ## The assembler (`create_docx_from_structured_data`, lines 30-101) -/

/-- The two validation failures of §7 on which the function returns
`False` before any document is built. -/
inductive ValidationFailure where
  | malformedJson
  | missingElementsKey
deriving DecidableEq, Repr

/-- Outcome of `create_docx_from_structured_data`: `failure` models the
early `return False` paths (no document is built or saved), `saved` the
normal path with the blocks appended to the document, and `raised` an
exception that escapes the function (only `json.JSONDecodeError` is caught
at line 37). -/
inductive ConversionOutcome where
  | failure (f : ValidationFailure)
  | saved (doc : List Block)
  | raised (e : PyErr)
deriving DecidableEq, Repr

/-- The validation at line 34:
`"document_elements" not in data or not isinstance(data["document_elements"], list)`.
Python `in` on a dict tests keys; on a list it tests membership (equality
with the string); on a string it tests substring containment; on any other
value it raises `TypeError`.  When the membership test passes on a list or
a string, the subsequent string-indexing raises `TypeError`.  Returns the
element list when validation passes, `none` when the function returns
`False`. -/
def validate_elements (data : Json) : Except PyErr (Option (List Json)) :=
  match data with
  | .obj fields =>
    match List.lookup "document_elements" fields with
    | some (.arr elems) => .ok (some elems)
    | some _ => .ok none
    | none => .ok none
  | .arr xs =>
    if xs.any (fun j => j.eqStr "document_elements") then .error .typeError
    else .ok none
  | .str s =>
    if pyStrContains s "document_elements" then .error .typeError
    else .ok none
  | _ => .error .typeError

/-- Function `create_docx_from_structured_data` (lines 30-101) after the `json.loads`
call, whose result is the argument: `none` models a `json.JSONDecodeError`
(caught at line 37, returning `False`).  The final `doc.save` is an opaque
filesystem write, modelled as succeeding. -/
def create_docx_from_structured_data (parsed : Option Json) : ConversionOutcome :=
  match parsed with
  | none => .failure .malformedJson
  | some data =>
    match validate_elements data with
    | .error e => .raised e
    | .ok none => .failure .missingElementsKey
    | .ok (some elems) =>
      match render_all elems with
      | .error e => .raised e
      | .ok blocks => .saved blocks

/-! ## Helper lemmas -/

/-- Python `str.split` never returns an empty list of fields. -/
theorem pySplitCharAux_ne_nil (sep : Char) :
    ∀ (l acc : List Char), pySplitCharAux sep l acc ≠ [] := by
  intro l
  induction l with
  | nil => intro acc; simp [pySplitCharAux]
  | cons c rest ih =>
    intro acc
    unfold pySplitCharAux
    split
    · simp
    · exact ih (c :: acc)

/-- The cell list of a pipe-delimited line is non-empty. -/
theorem pmt_cells_length_pos (line : String) :
    0 < ((pySplitChar '|' (pyStripPipes line)).map clean_cell).length := by
  rw [List.length_map]
  exact List.length_pos.mpr (pySplitCharAux_ne_nil '|' _ _)

/-- Invariant carried by the `parse_markdown_table` loop: every collected
row has `num_cols` cells; nothing is collected before the header;
`num_cols` is zero only while nothing is collected. -/
def PmtInv (st : PmtState) : Prop :=
  (∀ r ∈ st.1, r.length = st.2.2) ∧
  (st.2.1 = false → st.1 = []) ∧
  (st.2.2 = 0 → st.1 = [])

theorem pmtStep_preserves_inv (st : PmtState) (p : Nat × String)
    (h : PmtInv st) : PmtInv (pmtStep st p) := by
  obtain ⟨td, hp, nc⟩ := st
  obtain ⟨i, line⟩ := p
  obtain ⟨h1, h2, h3⟩ := h
  simp only at h1 h2 h3
  have hpos := pmt_cells_length_pos line
  unfold pmtStep
  dsimp only
  split
  · split <;> exact ⟨h1, h2, h3⟩
  · split
    · -- header not yet parsed: the line becomes the header row
      rename_i hhp
      have hf : hp = false := by
        cases hp
        · rfl
        · exact absurd rfl hhp
      have htd : td = [] := h2 hf
      subst htd
      refine ⟨?_, ?_, ?_⟩ <;> dsimp only
      · intro r hr
        simp only [List.nil_append, List.mem_singleton] at hr
        simp [hr]
      · intro hcontra
        simp at hcontra
      · intro h0
        exact absurd h0 (by omega)
    · rename_i hhp
      have hpt : hp = true := by
        cases hp
        · exact absurd (fun hx => by cases hx) hhp
        · rfl
      split
      · -- cell count equals num_cols: row appended as-is
        rename_i heq
        refine ⟨?_, ?_, ?_⟩ <;> dsimp only
        · intro r hr
          rcases List.mem_append.mp hr with hr | hr
          · exact h1 r hr
          · simp only [List.mem_singleton] at hr
            simp [hr, heq]
        · intro hcontra
          rw [hpt] at hcontra
          cases hcontra
        · intro h0
          exact absurd h0 (by omega)
      · split
        · -- more cells than num_cols: truncated
          rename_i hgt
          obtain ⟨hgt1, hgt2⟩ := hgt
          refine ⟨?_, ?_, ?_⟩ <;> dsimp only
          · intro r hr
            rcases List.mem_append.mp hr with hr | hr
            · exact h1 r hr
            · simp only [List.mem_singleton] at hr
              subst hr
              rw [List.length_take]
              omega
          · intro hcontra
            rw [hpt] at hcontra
            cases hcontra
          · intro h0
            exact absurd h0 (by omega)
        · split
          · -- fewer cells than num_cols: padded with empty strings
            rename_i hlt
            obtain ⟨hlt1, hlt2⟩ := hlt
            refine ⟨?_, ?_, ?_⟩ <;> dsimp only
            · intro r hr
              rcases List.mem_append.mp hr with hr | hr
              · exact h1 r hr
              · simp only [List.mem_singleton] at hr
                subst hr
                rw [List.length_append, List.length_replicate]
                omega
            · intro hcontra
              rw [hpt] at hcontra
              cases hcontra
            · intro h0
              exact absurd h0 (by omega)
          · split
            · -- dead in practice: num_cols = 0 after the header
              rename_i hz
              have htd : td = [] := h3 hz.1
              subst htd
              refine ⟨?_, ?_, ?_⟩ <;> dsimp only
              · intro r hr
                simp only [List.nil_append, List.mem_singleton] at hr
                simp [hr]
              · intro hcontra
                rw [hpt] at hcontra
                cases hcontra
              · intro h0
                exact absurd h0 (by omega)
            · exact ⟨h1, h2, h3⟩

theorem foldl_preserves {α β : Type} (P : β → Prop) (f : β → α → β)
    (hf : ∀ b a, P b → P (f b a)) :
    ∀ (l : List α) (b : β), P b → P (l.foldl f b) := by
  intro l
  induction l with
  | nil => intro b hb; exact hb
  | cons a rest ih =>
    intro b hb
    exact ih (f b a) (hf b a hb)

/-- All rows of a parsed grid have the final `num_cols` cells. -/
theorem parse_markdown_table_inv (s : String) :
    ∀ r ∈ parse_markdown_table s,
      r.length = ((pmtLines s).enum.foldl pmtStep ([], false, 0)).2.2 := by
  intro r hr
  have hinv : PmtInv ((pmtLines s).enum.foldl pmtStep ([], false, 0)) := by
    apply foldl_preserves PmtInv pmtStep
    · intro b a hb; exact pmtStep_preserves_inv b a hb
    · exact ⟨by simp, fun _ => rfl, fun _ => rfl⟩
  unfold parse_markdown_table at hr
  dsimp only at hr
  split at hr
  · simp at hr
  · exact hinv.1 r hr

/-! ## Claim theorems -/

/-- C3: for every input string, every row of the grid returned by
`parse_markdown_table` has exactly the same cell count as the first
accepted (header) row — over-long rows having been truncated and short
rows right-padded with empty strings by the loop. -/
theorem parse_table_rows_match_header (s : String) (r : List String)
    (hr : r ∈ parse_markdown_table s) (r0 : List String)
    (h0 : (parse_markdown_table s).head? = some r0) :
    r.length = r0.length := by
  have hrlen := parse_markdown_table_inv s r hr
  have h0mem : r0 ∈ parse_markdown_table s := by
    cases hl : parse_markdown_table s with
    | nil => rw [hl] at h0; cases h0
    | cons a t =>
      rw [hl] at h0
      simp only [List.head?_cons, Option.some.injEq] at h0
      rw [← h0]
      exact List.mem_cons_self a t
  have h0len := parse_markdown_table_inv s r0 h0mem
  rw [hrlen, h0len]

/-- Witness for C3: in `"| a | b |\n| c |"` the short second row is padded
to `["c", ""]`, matching the header's two cells. -/
theorem parse_table_rows_match_header_witness :
    ["c", ""] ∈ parse_markdown_table "| a | b |\n| c |" ∧
    (parse_markdown_table "| a | b |\n| c |").head? = some ["a", "b"] ∧
    (["c", ""] : List String).length = (["a", "b"] : List String).length :=
  ⟨by decide, by decide,
   parse_table_rows_match_header "| a | b |\n| c |" ["c", ""] (by decide)
     ["a", "b"] (by decide)⟩

/-- C1 (refuted by the code): a line composed solely of `{-, |, :, space}`
occurring as the second parsed line is *not* skipped when it starts and
ends with `|` — the check at line 15 sits in the branch already headed for
`continue`, so the separator `"|-|"` is parsed as the data row `["-"]`. -/
theorem separator_second_line_kept_as_row :
    ("|-|").data.all (fun c => c = '-' || c = '|' || c = ':' || c = ' ') = true ∧
    pmtLines "| A |\n|-|" = ["| A |", "|-|"] ∧
    parse_markdown_table "| A |\n|-|" = [["A"], ["-"]] :=
  ⟨by decide, by decide, by decide⟩

/-- C6 (refuted by the code): the canonical well-formed Markdown table with
one data row and two columns parses to *three* rows, not N+1 = 2, because
the alignment separator is kept as a data row. -/
theorem wellformed_table_parses_to_three_rows :
    parse_markdown_table "| A | B |\n|---|---|\n| 1 | 2 |" =
      [["A", "B"], ["---", "---"], ["1", "2"]] ∧
    (parse_markdown_table "| A | B |\n|---|---|\n| 1 | 2 |").length = 3 :=
  ⟨by decide, by decide⟩

/-- The end-to-end input of §8 of the spec, as the parsed JSON value of
`{"document_elements":[{"type":"heading_1","content":"Title"},
{"type":"table_markdown","content":"| A | B |\n|---|---|\n| 1 | 2 |"}]}`. -/
def endToEndInput : Json :=
  .obj [("document_elements", .arr
    [ .obj [("type", .str "heading_1"), ("content", .str "Title")],
      .obj [("type", .str "table_markdown"),
            ("content", .str "| A | B |\n|---|---|\n| 1 | 2 |")] ])]

/-- C2 (refuted by the code): assembling the end-to-end input yields the
Heading-1 block `"Title"` followed by a 2-column table with a bold header
`["A","B"]` but *two* data rows — the kept separator `["---","---"]` and
`["1","2"]` — i.e. three table rows in all, not the two the spec
promises. -/
theorem end_to_end_table_has_separator_row :
    create_docx_from_structured_data (some endToEndInput) =
      .saved [.para .heading1 "Title",
              .table 2 [("A", true), ("B", true)] [["---", "---"], ["1", "2"]]] := by
  decide

/-- The claim's (spec's) words for the `MissingElementsKey` condition: the
parsed JSON lacks a top-level `"document_elements"` key mapping to a list.
Compared against the code's actual behaviour below. -/
def hasElementsList (j : Json) : Bool :=
  match j with
  | .obj fields =>
    match List.lookup "document_elements" fields with
    | some (.arr _) => true
    | _ => false
  | _ => false

/-- The condition under which the code actually returns
`ValidationFailure(MissingElementsKey)`: a dict without the key mapping to
a list, a list not containing the string `"document_elements"` as an
element, or a string not containing it as a substring — numbers, booleans
and `null`, and containers where the membership test succeeds, raise
`TypeError` instead. -/
def codeMissingElementsCond (j : Json) : Bool :=
  match j with
  | .obj fields =>
    match List.lookup "document_elements" fields with
    | some (.arr _) => false
    | _ => true
  | .arr xs => !(xs.any (fun e => e.eqStr "document_elements"))
  | .str s => !(pyStrContains s "document_elements")
  | _ => false

theorem validate_ok_none_iff (j : Json) :
    validate_elements j = .ok none ↔ codeMissingElementsCond j = true := by
  cases j with
  | obj fields =>
    rcases hlk : List.lookup "document_elements" fields with _ | v
    · simp [validate_elements, codeMissingElementsCond, hlk]
    · cases v <;> simp [validate_elements, codeMissingElementsCond, hlk]
  | arr xs =>
    by_cases hx : xs.any (fun e => e.eqStr "document_elements") = true <;>
      simp [validate_elements, codeMissingElementsCond, hx]
  | str s =>
    by_cases hx : pyStrContains s "document_elements" = true <;>
      simp [validate_elements, codeMissingElementsCond, hx]
  | null => simp [validate_elements, codeMissingElementsCond]
  | bool b => simp [validate_elements, codeMissingElementsCond]
  | num n => simp [validate_elements, codeMissingElementsCond]

/-- C4, counterexample to the claim as stated: `5` is valid JSON that lacks
a top-level `document_elements` key mapping to a list, yet assembly does
*not* return a `ValidationFailure` — the membership test
`"document_elements" not in data` raises an uncaught `TypeError`. -/
theorem scalar_json_raises_instead_of_failing :
    hasElementsList (.num 5) = false ∧
    create_docx_from_structured_data (some (.num 5)) = .raised .typeError :=
  ⟨by decide, by decide⟩

/-- C4, amended: assembly returns `ValidationFailure(MalformedJson)` exactly
for invalid JSON, and `ValidationFailure(MissingElementsKey)` exactly when
the parsed value is a dict without a `document_elements` key mapping to a
list, a list without the string `"document_elements"` as an element, or a
string without it as a substring; for other shapes the membership test
raises an uncaught `TypeError`.  In particular `{"foo": []}` fails with
`MissingElementsKey`, and on every failure no document is built or saved. -/
theorem assemble_validation_characterization :
    (∀ parsed : Option Json,
      (create_docx_from_structured_data parsed = .failure .malformedJson ↔
        parsed = none)) ∧
    (∀ j : Json,
      (create_docx_from_structured_data (some j) = .failure .missingElementsKey ↔
        codeMissingElementsCond j = true)) ∧
    create_docx_from_structured_data (some (.obj [("foo", .arr [])])) =
      .failure .missingElementsKey := by
  refine ⟨?_, ?_, by decide⟩
  · intro parsed
    cases parsed with
    | none => simp [create_docx_from_structured_data]
    | some j =>
      simp only [create_docx_from_structured_data]
      rcases hv : validate_elements j with e | oelems
      · simp
      · rcases oelems with _ | elems
        · simp
        · rcases hr : render_all elems with e | bs <;> simp [hr]
  · intro j
    have hiff := validate_ok_none_iff j
    simp only [create_docx_from_structured_data]
    rcases hv : validate_elements j with e | oelems
    · rw [hv] at hiff
      simp only [reduceCtorEq, false_iff] at hiff
      simp [Bool.not_eq_true] at hiff
      simp [hiff]
    · rcases oelems with _ | elems
      · rw [hv] at hiff
        simp only [true_iff] at hiff
        simp [hiff]
      · rw [hv] at hiff
        simp only [Except.ok.injEq, reduceCtorEq, false_iff] at hiff
        simp [Bool.not_eq_true] at hiff
        rcases hr : render_all elems with e | bs <;> simp [hr, hiff]

/-- Witness for the amended C4: invalid JSON yields `MalformedJson`. -/
theorem assemble_validation_characterization_witness :
    create_docx_from_structured_data none = .failure .malformedJson :=
  (assemble_validation_characterization.1 none).mpr rfl

/-- The DocumentElement contract of §3: an object whose `"content"` key
holds a string. -/
def conforms (e : Json) : Bool :=
  match e with
  | .obj fields =>
    match List.lookup "content" fields with
    | some (.str _) => true
    | _ => false
  | _ => false

theorem render_element_ok_of_conforms (e : Json) (h : conforms e = true) :
    ∃ bs, render_element e = .ok bs := by
  cases e with
  | obj fields =>
    rcases hlk : List.lookup "content" fields with _ | v
    · simp [conforms, hlk] at h
    · cases v with
      | str s =>
        simp only [render_element, hlk, Option.getD_some]
        split
        · exact ⟨_, rfl⟩
        · split
          · exact ⟨_, rfl⟩
          · split
            · exact ⟨_, rfl⟩
            · split
              · exact ⟨_, rfl⟩
              · split
                · exact ⟨_, rfl⟩
                · split
                  · exact ⟨_, rfl⟩
                  · exact ⟨_, rfl⟩
      | null => simp [conforms, hlk] at h
      | bool b => simp [conforms, hlk] at h
      | num n => simp [conforms, hlk] at h
      | arr xs => simp [conforms, hlk] at h
      | obj fs => simp [conforms, hlk] at h
  | null => simp [conforms] at h
  | bool b => simp [conforms] at h
  | num n => simp [conforms] at h
  | arr xs => simp [conforms] at h
  | str s => simp [conforms] at h

theorem render_all_ok_of_conforms (elems : List Json)
    (h : ∀ e ∈ elems, conforms e = true) :
    ∃ bs, render_all elems = .ok bs := by
  induction elems with
  | nil => exact ⟨[], rfl⟩
  | cons e rest ih =>
    obtain ⟨bs1, hbs1⟩ := render_element_ok_of_conforms e (h e (by simp))
    obtain ⟨bs2, hbs2⟩ := ih (fun x hx => h x (by simp [hx]))
    exact ⟨bs1 ++ bs2, by simp [render_all, hbs1, hbs2]⟩

/-- C5: once validation passes, if every element conforms to the
DocumentElement contract (an object with a string `"content"`), no
iteration of the render loop raises, so assembly processes every element
and reaches the save step; the only fallible construction (the table) sits
inside a local `try`/`except`. -/
theorem conforming_assembly_never_fails (fields : List (String × Json))
    (elems : List Json)
    (hkey : List.lookup "document_elements" fields = some (.arr elems))
    (hconf : ∀ e ∈ elems, conforms e = true) :
    ∃ blocks, create_docx_from_structured_data (some (.obj fields)) = .saved blocks := by
  obtain ⟨bs, hbs⟩ := render_all_ok_of_conforms elems hconf
  refine ⟨bs, ?_⟩
  simp [create_docx_from_structured_data, validate_elements, hkey, hbs]

/-- Element list for the C5 witness: a heading and an unknown-typed
element, both conforming. -/
def c5Elems : List Json :=
  [ .obj [("type", .str "heading_1"), ("content", .str "T")],
    .obj [("type", .str "mystery"), ("content", .str "m")] ]

/-- Top-level fields for the C5 witness. -/
def c5Fields : List (String × Json) :=
  [("document_elements", .arr c5Elems)]

/-- Witness for C5 at a two-element list with a heading and an
unknown-typed element. -/
theorem conforming_assembly_never_fails_witness :
    List.lookup "document_elements" c5Fields = some (.arr c5Elems) ∧
    ∃ blocks,
      create_docx_from_structured_data (some (.obj c5Fields)) = .saved blocks :=
  ⟨rfl,
   conforming_assembly_never_fails c5Fields c5Elems rfl (by
    intro e he
    simp only [c5Elems, List.mem_cons, List.not_mem_nil, or_false] at he
    rcases he with h | h <;> subst h <;> rfl)⟩

/-- Every piece produced by `str.splitlines` is free of line-boundary
characters, provided the accumulator is. -/
theorem pySplitlinesGo_no_break :
    ∀ (l acc : List Char) (flag : Bool),
      (∀ c ∈ acc, pyIsLineBreak c = false) →
      ∀ p ∈ pySplitlinesGo l acc flag, ∀ c ∈ p.data, pyIsLineBreak c = false := by
  intro l
  induction l with
  | nil =>
    intro acc flag hacc p hp c hc
    simp only [pySplitlinesGo] at hp
    split at hp
    · simp at hp
    · simp only [List.mem_singleton] at hp
      subst hp
      exact hacc c (by simpa using hc)
  | cons a t ih =>
    intro acc flag hacc p hp c hc
    simp only [pySplitlinesGo] at hp
    split at hp
    · exact ih acc false hacc p hp c hc
    · split at hp
      · rcases List.mem_cons.mp hp with hp | hp
        · subst hp
          exact hacc c (by simpa using hc)
        · exact ih [] true (by simp) p hp c hc
      · split at hp
        · rcases List.mem_cons.mp hp with hp | hp
          · subst hp
            exact hacc c (by simpa using hc)
          · exact ih [] false (by simp) p hp c hc
        · rename_i hskip hcr hbr
          refine ih (a :: acc) false ?_ p hp c hc
          intro d hd
          rcases List.mem_cons.mp hd with hd | hd
          · subst hd
            simpa using hbr
          · exact hacc d hd

/-- Joining boundary-free pieces with `' '.join` is boundary-free. -/
theorem pySpaceJoin_no_break :
    ∀ (xs : List String),
      (∀ p ∈ xs, ∀ c ∈ p.data, pyIsLineBreak c = false) →
      ∀ c ∈ (pySpaceJoin xs).data, pyIsLineBreak c = false := by
  intro xs
  induction xs with
  | nil =>
    intro _ c hc
    simp [pySpaceJoin] at hc
  | cons x rest ih =>
    intro h c hc
    cases rest with
    | nil =>
      rw [pySpaceJoin] at hc
      exact h x (by simp) c hc
    | cons y rest2 =>
      rw [pySpaceJoin, String.data_append, String.data_append] at hc
      rcases List.mem_append.mp hc with hc | hc
      · rcases List.mem_append.mp hc with hc | hc
        · exact h x (by simp) c hc
        · simp only [List.mem_singleton] at hc
          subst hc
          decide
      · exact ih (fun p hp => h p (List.mem_cons_of_mem x hp)) c hc

/-- Stripping only removes characters. -/
theorem mem_of_mem_stripWhile (p : Char → Bool) (l : List Char) (c : Char)
    (h : c ∈ stripWhile p l) : c ∈ l := by
  unfold stripWhile at h
  simp only [List.mem_reverse] at h
  have h2 := (List.dropWhile_sublist p).mem h
  simp only [List.mem_reverse] at h2
  exact (List.dropWhile_sublist p).mem h2

/-- The processed content of a `paragraph` element (line 54):
`' '.join(content.splitlines()).strip()`. -/
def paragraph_processed (content : String) : String :=
  pyStrip (pySpaceJoin (pySplitlines content))

/-- C7: a `paragraph` element's content has its line breaks collapsed to
single spaces and its ends trimmed; a non-empty result is emitted as
exactly one Normal-style block and an empty result as no block; the
emitted text never contains a line-boundary character. -/
theorem paragraph_collapse (fields : List (String × Json)) (s : String)
    (hty : List.lookup "type" fields = some (.str "paragraph"))
    (hc : List.lookup "content" fields = some (.str s)) :
    (paragraph_processed s ≠ "" →
      render_element (.obj fields) =
        .ok [.para .normal (paragraph_processed s)]) ∧
    (paragraph_processed s = "" →
      render_element (.obj fields) = .ok []) ∧
    (∀ c ∈ (paragraph_processed s).data, pyIsLineBreak c = false) := by
  have hnb : ∀ c ∈ (paragraph_processed s).data, pyIsLineBreak c = false := by
    intro c hcm
    have h1 : c ∈ (pySpaceJoin (pySplitlines s)).data :=
      mem_of_mem_stripWhile pyIsSpace _ c hcm
    refine pySpaceJoin_no_break (pySplitlines s) ?_ c h1
    intro piece hpiece
    exact pySplitlinesGo_no_break s.data [] false (by simp) piece hpiece
  have hrender : render_element (.obj fields) =
      .ok (if paragraph_processed s = "" then []
           else [.para .normal (paragraph_processed s)]) := by
    simp only [render_element, hty, hc, Option.getD_some, optEqStr, Json.eqStr,
      beq_iff_eq]
    rw [if_neg (by decide), if_neg (by decide), if_neg (by decide)]
    simp [paragraph_processed]
  refine ⟨?_, ?_, hnb⟩
  · intro hne
    rw [hrender, if_neg hne]
  · intro heq
    rw [hrender, if_pos heq]

/-- Witness for C7: `"line one\nline two"` renders as one Normal block with
text `"line one line two"`. -/
theorem paragraph_collapse_witness :
    paragraph_processed "line one\nline two" ≠ "" ∧
    render_element (.obj [("type", .str "paragraph"),
                          ("content", .str "line one\nline two")]) =
      .ok [.para .normal "line one line two"] := by
  have h := (paragraph_collapse
    [("type", .str "paragraph"), ("content", .str "line one\nline two")]
    "line one\nline two" rfl rfl).1
  have he : paragraph_processed "line one\nline two" = "line one line two" := by
    decide
  refine ⟨by rw [he]; decide, ?_⟩
  rw [h (by rw [he]; decide), he]

/-- C8: a `table_markdown` element whose content is empty or
whitespace-only, or whose content parses to a grid with zero rows,
contributes no block to the document — no table and no placeholder. -/
theorem table_blank_or_empty_grid_no_blocks (fields : List (String × Json))
    (s : String)
    (hty : List.lookup "type" fields = some (.str "table_markdown"))
    (hc : List.lookup "content" fields = some (.str s))
    (hcase : pyStrip s = "" ∨ parse_markdown_table s = []) :
    render_element (.obj fields) = .ok [] := by
  have htbl : render_table_str s = [] := by
    rcases hcase with hws | hgrid
    · rw [render_table_str, if_neg]
      intro hcontra
      exact hcontra.2 hws
    · by_cases hcond : s ≠ "" ∧ pyStrip s ≠ ""
      · rw [render_table_str, if_pos hcond]
        dsimp only
        rw [hgrid]
      · rw [render_table_str, if_neg hcond]
  simp only [render_element, hty, hc, Option.getD_some, optEqStr, Json.eqStr,
    beq_iff_eq]
  rw [if_neg (by decide), if_neg (by decide), if_neg (by decide),
    if_neg (by decide)]
  rw [htbl]
  exact if_pos trivial

/-- Witness for C8 at the empty content. -/
theorem table_blank_no_blocks_witness :
    pyStrip "" = "" ∧
    render_element (.obj [("type", Json.str "table_markdown"),
                          ("content", Json.str "")]) = .ok [] :=
  ⟨by decide,
   table_blank_or_empty_grid_no_blocks _ "" rfl rfl (Or.inl (by decide))⟩

/-- C9: an element with an unrecognized type string and non-empty content
renders as exactly one Normal-style block whose text contains both the
offending type string and the original content. -/
theorem unknown_type_visible_block (fields : List (String × Json))
    (ty s : String)
    (hty : List.lookup "type" fields = some (.str ty))
    (hc : List.lookup "content" fields = some (.str s))
    (hunk : ty ≠ "heading_1" ∧ ty ≠ "heading_2" ∧ ty ≠ "heading_3" ∧
            ty ≠ "paragraph" ∧ ty ≠ "table_markdown")
    (hs : s ≠ "") :
    render_element (.obj fields) =
      .ok [.para .normal ("[Unknown type: " ++ ty ++ "] " ++ s)] ∧
    ty.data <:+: ("[Unknown type: " ++ ty ++ "] " ++ s).data ∧
    s.data <:+: ("[Unknown type: " ++ ty ++ "] " ++ s).data := by
  obtain ⟨h1, h2, h3, h4, h5⟩ := hunk
  refine ⟨?_, ?_, ?_⟩
  · simp only [render_element, hty, hc, Option.getD_some, optEqStr, Json.eqStr,
      beq_iff_eq]
    rw [if_neg h1, if_neg h2, if_neg h3, if_neg h4, if_neg h5,
      if_pos (by simp [Json.truthy, hs])]
    rfl
  · exact ⟨"[Unknown type: ".data, "] ".data ++ s.data,
      by simp [String.data_append]⟩
  · exact ⟨("[Unknown type: " ++ ty ++ "] ").data, [],
      by simp [String.data_append]⟩

/-- Witness for C9 at `{"type": "footnote", "content": "x"}`. -/
theorem unknown_type_visible_block_witness :
    render_element (.obj [("type", Json.str "footnote"),
                          ("content", Json.str "x")]) =
      .ok [.para .normal "[Unknown type: footnote] x"] ∧
    ("footnote").data <:+: ("[Unknown type: footnote] x").data :=
  ⟨by
    have h := (unknown_type_visible_block
      [("type", Json.str "footnote"), ("content", Json.str "x")]
      "footnote" "x" rfl rfl
      (by refine ⟨?_, ?_, ?_, ?_, ?_⟩ <;> decide) (by decide)).1
    simpa using h,
   by
    have h := (unknown_type_visible_block
      [("type", Json.str "footnote"), ("content", Json.str "x")]
      "footnote" "x" rfl rfl
      (by refine ⟨?_, ?_, ?_, ?_, ?_⟩ <;> decide) (by decide)).2.1
    simpa using h⟩

/-- C10: a heading element emits its styled block even for empty content,
while `paragraph`, `table_markdown` and unknown-typed elements with empty
content emit nothing. -/
theorem empty_heading_still_emits_block :
    (∀ (fields : List (String × Json)) (s : String),
      List.lookup "type" fields = some (.str "heading_1") →
      List.lookup "content" fields = some (.str s) →
      render_element (.obj fields) = .ok [.para .heading1 s]) ∧
    (∀ (fields : List (String × Json)) (s : String),
      List.lookup "type" fields = some (.str "heading_2") →
      List.lookup "content" fields = some (.str s) →
      render_element (.obj fields) = .ok [.para .heading2 s]) ∧
    (∀ (fields : List (String × Json)) (s : String),
      List.lookup "type" fields = some (.str "heading_3") →
      List.lookup "content" fields = some (.str s) →
      render_element (.obj fields) = .ok [.para .heading3 s]) ∧
    (∀ fields : List (String × Json),
      List.lookup "type" fields = some (.str "paragraph") →
      List.lookup "content" fields = some (.str "") →
      render_element (.obj fields) = .ok []) ∧
    (∀ fields : List (String × Json),
      List.lookup "type" fields = some (.str "table_markdown") →
      List.lookup "content" fields = some (.str "") →
      render_element (.obj fields) = .ok []) ∧
    (∀ (fields : List (String × Json)) (ty : String),
      List.lookup "type" fields = some (.str ty) →
      List.lookup "content" fields = some (.str "") →
      (ty ≠ "heading_1" ∧ ty ≠ "heading_2" ∧ ty ≠ "heading_3" ∧
       ty ≠ "paragraph" ∧ ty ≠ "table_markdown") →
      render_element (.obj fields) = .ok []) := by
  refine ⟨?_, ?_, ?_, ?_, ?_, ?_⟩
  · intro fields s hty hc
    simp only [render_element, hty, hc, Option.getD_some, optEqStr, Json.eqStr,
      beq_iff_eq]
    rfl
  · intro fields s hty hc
    simp only [render_element, hty, hc, Option.getD_some, optEqStr, Json.eqStr,
      beq_iff_eq]
    rw [if_neg (by decide)]
    rfl
  · intro fields s hty hc
    simp only [render_element, hty, hc, Option.getD_some, optEqStr, Json.eqStr,
      beq_iff_eq]
    rw [if_neg (by decide), if_neg (by decide)]
    rfl
  · intro fields hty hc
    simp only [render_element, hty, hc, Option.getD_some, optEqStr, Json.eqStr,
      beq_iff_eq]
    rw [if_neg (by decide), if_neg (by decide), if_neg (by decide)]
    rfl
  · intro fields hty hc
    simp only [render_element, hty, hc, Option.getD_some, optEqStr, Json.eqStr,
      beq_iff_eq]
    rw [if_neg (by decide), if_neg (by decide), if_neg (by decide),
      if_neg (by decide)]
    rfl
  · intro fields ty hty hc hunk
    obtain ⟨h1, h2, h3, h4, h5⟩ := hunk
    simp only [render_element, hty, hc, Option.getD_some, optEqStr, Json.eqStr,
      beq_iff_eq]
    rw [if_neg h1, if_neg h2, if_neg h3, if_neg h4, if_neg h5,
      if_neg (by decide)]

/-- Witness for C10: `heading_1` with empty content yields an (empty)
Heading-1 block; an unknown type with empty content yields no block. -/
theorem empty_heading_still_emits_block_witness :
    render_element (.obj [("type", Json.str "heading_1"),
                          ("content", Json.str "")]) =
      .ok [.para .heading1 ""] ∧
    render_element (.obj [("type", Json.str "footnote"),
                          ("content", Json.str "")]) = .ok [] :=
  ⟨empty_heading_still_emits_block.1 _ "" rfl rfl,
   empty_heading_still_emits_block.2.2.2.2.2 _ "footnote" rfl rfl
     (by refine ⟨?_, ?_, ?_, ?_, ?_⟩ <;> decide)⟩

end AiPdf2Docx
